import Mathlib

/-!
Shallow embedding of `omega_miya/web_resource/pixiv/helper.py`.

Python strings are modelled as `List Char`.  The `re` patterns used by
`parse_pid_from_url` are embedded as explicit backtracking scanners that
mirror Python `re.search` semantics for those concrete patterns: the dot
does not match a newline, `$` also matches just before one final newline,
alternatives and lazy/greedy repetitions are resolved exactly as the
backtracking engine would resolve them for these patterns.
-/

namespace PixivHelper

abbrev Str := List Char

/-- Does `s` start with the pattern `p` (literal match)? -/
def sw : Str → Str → Bool
  | [], _ => true
  | _ :: _, [] => false
  | p :: ps, c :: cs => if p = c then sw ps cs else false

/-- Strip the literal `p` from the front of `s`, if present. -/
def stripPre : Str → Str → Option Str
  | [], s => some s
  | _ :: _, [] => none
  | p :: ps, c :: cs => if p = c then stripPre ps cs else none

/-- Decimal value of a digit string, as computed by Python `int`. -/
def digitsVal (l : Str) : Nat := l.foldl (fun a c => a * 10 + (c.toNat - 48)) 0

/-- Nonempty and all decimal digits. -/
def isDigits (l : Str) : Bool := !l.isEmpty && l.all Char.isDigit

/-- Drop one final newline, mirroring that Python `$` also matches just
before a single trailing newline. -/
def chopFinalNl (l : Str) : Str := if l.getLast? = some '\n' then l.dropLast else l

/-- Semantics of the regex tail `(\d+?)$`: the remaining characters (up to
an optional final newline) must be one or more digits; the group is all of
them. -/
def digitsToEnd (l : Str) : Option Nat :=
  let d := chopFinalNl l
  if isDigits d then some (digitsVal d) else none

def httpsPat : Str := ['h', 't', 't', 'p', 's', ':', '/', '/']
def httpPat : Str := ['h', 't', 't', 'p', ':', '/', '/']
def pixSlash : Str := ['p', 'i', 'x', 'i', 'v', '.', 'n', 'e', 't', '/']
def pixPat : Str := ['p', 'i', 'x', 'i', 'v', '.', 'n', 'e', 't']
def artworksSlash : Str := ['a', 'r', 't', 'w', 'o', 'r', 'k', 's', '/']
def iSlash : Str := ['i', '/']
def illustIdPat : Str := ['i', 'l', 'l', 'u', 's', 't', '_', 'i', 'd', '=']
def modePat : Str := ['&', 'm', 'o', 'd', 'e', '=']

/-- A lazy `.*?` followed by the literal `pat` followed by a continuation
`k`: scan left to right for an occurrence of `pat` whose continuation
matches, backtracking one character at a time; the dot-star cannot cross a
newline. -/
def scanFor (pat : Str) (k : Str → Option Nat) : Str → Option Nat
  | [] => none
  | c :: cs =>
    match (if sw pat (c :: cs) then k ((c :: cs).drop pat.length) else none) with
    | some n => some n
    | none => if c = '\n' then none else scanFor pat k cs

/-- Tail of the strict new-style pattern after `pixiv.net/`:
`(artworks|i)/(\d+?)$`, alternatives tried in order. -/
def tryNewTailStrict (l : Str) : Option Nat :=
  if sw artworksSlash l then digitsToEnd (l.drop 9)
  else if sw iSlash l then digitsToEnd (l.drop 2)
  else none

/-- Scanner for `.*?pixiv\.net/(artworks|i)/(\d+?)$`. -/
def scanStrictNew : Str → Option Nat := scanFor pixSlash tryNewTailStrict

/-- Semantics of `re.search(r'^https?://.*?pixiv\.net/(artworks|i)/(\d+?)$', text)`,
returning the numeric value of group 2. -/
def matchStrictNew (s : Str) : Option Nat :=
  match stripPre httpsPat s with
  | some r => scanStrictNew r
  | none =>
    match stripPre httpPat s with
    | some r => scanStrictNew r
    | none => none

/-- Word character for Python `\w` (ASCII range). -/
def isWordChar (c : Char) : Bool := c.isAlphanum || c = '_'

/-- Longest digit run at the front of `l`, with the rest. -/
def takeDigitRun : Str → Str × Str
  | [] => ([], [])
  | c :: cs =>
    if c.isDigit then
      let p := takeDigitRun cs
      (c :: p.1, p.2)
    else ([], c :: cs)

/-- Tail of the strict legacy pattern after `illust_id=`:
`(\d+?)(&mode=\w+?)?$`.  The group is the digit run; an optional literal
`&mode=` followed by one or more word characters may close the string. -/
def legacyTailStrict (l : Str) : Option Nat :=
  let l' := chopFinalNl l
  let p := takeDigitRun l'
  if p.1.isEmpty then none
  else if p.2.isEmpty then some (digitsVal p.1)
  else if sw modePat p.2 && !(p.2.drop 6).isEmpty && (p.2.drop 6).all isWordChar then
    some (digitsVal p.1)
  else none

/-- Scanner for `.*?illust_id=` followed by the strict legacy tail. -/
def scanStrictIllust : Str → Option Nat := scanFor illustIdPat legacyTailStrict

/-- Semantics of `re.search(r'^https?://.*?pixiv\.net.*?illust_id=(\d+?)(&mode=\w+?)?$', text)`,
returning the numeric value of group 1. -/
def matchStrictLegacy (s : Str) : Option Nat :=
  let afterScheme : Option Str :=
    match stripPre httpsPat s with
    | some r => some r
    | none => stripPre httpPat s
  match afterScheme with
  | none => none
  | some r => scanFor pixPat scanStrictIllust r

/-- Tail of the loose new-style pattern after `pixiv.net/`:
`(artworks|i)/(\d+)` with a greedy, unanchored digit group. -/
def tryNewTailLoose (l : Str) : Option Nat :=
  if sw artworksSlash l then
    let p := takeDigitRun (l.drop 9)
    if p.1.isEmpty then none else some (digitsVal p.1)
  else if sw iSlash l then
    let p := takeDigitRun (l.drop 2)
    if p.1.isEmpty then none else some (digitsVal p.1)
  else none

/-- Scanner for the loose `.*?pixiv\.net/(artworks|i)/(\d+)` part. -/
def scanLooseNew : Str → Option Nat := scanFor pixSlash tryNewTailLoose

/-- Semantics of `re.search(r'https?://.*?pixiv\.net/(artworks|i)/(\d+)', text)`:
unanchored, so every position may start the match. -/
def matchLooseNew : Str → Option Nat
  | [] => none
  | c :: cs =>
    match
      (match stripPre httpsPat (c :: cs) with
       | some r => scanLooseNew r
       | none =>
         match stripPre httpPat (c :: cs) with
         | some r => scanLooseNew r
         | none => none) with
    | some n => some n
    | none => matchLooseNew cs

/-- Tail of the loose legacy pattern after `illust_id=`: a greedy,
unanchored `(\d+)`. -/
def legacyTailLoose (l : Str) : Option Nat :=
  let p := takeDigitRun l
  if p.1.isEmpty then none else some (digitsVal p.1)

/-- Scanner for the loose `.*?illust_id=(\d+)` part. -/
def scanLooseIllust : Str → Option Nat := scanFor illustIdPat legacyTailLoose

/-- Semantics of `re.search(r'https?://.*?pixiv\.net.*?illust_id=(\d+)', text)`. -/
def matchLooseLegacy : Str → Option Nat
  | [] => none
  | c :: cs =>
    match
      (match
        (match stripPre httpsPat (c :: cs) with
         | some r => some r
         | none => stripPre httpPat (c :: cs)) with
       | none => none
       | some r => scanFor pixPat scanLooseIllust r) with
    | some n => some n
    | none => matchLooseLegacy cs

/-- The function `parse_pid_from_url(text, url_mode=...)` from `helper.py`: in strict
url mode the two anchored patterns are tried in order, otherwise the two
unanchored ones; the first match wins and no match gives `None`. -/
def parse_pid_from_url (text : Str) (url_mode : Bool) : Option Nat :=
  if url_mode then
    match matchStrictNew text with
    | some n => some n
    | none => matchStrictLegacy text
  else
    match matchLooseNew text with
    | some n => some n
    | none => matchLooseLegacy text

/-- The function `format_artwork_preview_desc(pid, title, uname, num_lmt)` from
`helper.py`.  The pid argument may be an int or a str in Python; it is
taken here already rendered to characters, as the f-string renders it. -/
def format_artwork_preview_desc (pid title uname : Str) (num_lmt : Nat) : Str :=
  let pid_text := ['P', 'i', 'd', ':', ' '] ++ pid
  let title_text := if title.length > num_lmt then title.take num_lmt ++ ['.', '.', '.'] else title
  let author_text := ['A', 'u', 't', 'h', 'o', 'r', ':', ' '] ++ uname
  let author_text :=
    if author_text.length > num_lmt then author_text.take num_lmt ++ ['.', '.', '.']
    else author_text
  pid_text ++ '\n' :: title_text ++ '\n' :: author_text

/-! ## The resource fetcher -/

/-- Raw bytes. -/
abbrev Bytes := List Nat

/-- Modelled from the spec: `HttpFetcher.get_bytes` is not under `src/`;
per the Resource Fetcher contract a completed call carries a numeric
status and the response body bytes. -/
structure HttpFetcherBytesResult where
  status : Nat
  result : Bytes
  deriving DecidableEq

/-- The exception raised by `_get_pixiv_resource`, carrying the message
built by the f-string in `helper.py`. -/
structure PixivNetworkError where
  msg : Str
  deriving DecidableEq

/-- The message `f-string` of `helper.py` line 40 applied to a status. -/
def pixivNetworkErrorMsg (status : Nat) : Str :=
  ("PixivNetworkError, status code ").data ++ Nat.toDigits 10 status

/-- The function of `helper.py` lines 32-41, applied to the
completed fetch result: a non-200 status raises `PixivNetworkError` with
the status in its message, a 200 status returns the body bytes. -/
def get_pixiv_resource (content : HttpFetcherBytesResult) : Except PixivNetworkError Bytes :=
  if content.status ≠ 200 then
    Except.error ⟨pixivNetworkErrorMsg content.status⟩
  else
    Except.ok content.result

/-! ## The batch preview requester -/

/-- Model `PixivArtworkPreviewRequestModel` from `model/artwork.py`. -/
structure PixivArtworkPreviewRequestModel where
  desc_text : Str
  request_url : Str
  deriving DecidableEq

/-- Model `PixivArtworkPreviewBody` (a `PreviewImageThumbs`): one preview item,
description text plus fetched thumbnail bytes. -/
structure PixivArtworkPreviewBody where
  desc_text : Str
  preview_thumb : Bytes
  deriving DecidableEq

/-- Model `PixivArtworkPreviewModel` (a `PreviewImageModel`): a named batch with
its item count. -/
structure PixivArtworkPreviewModel where
  preview_name : Str
  count : Nat
  previews : List PixivArtworkPreviewBody
  deriving DecidableEq

/-- Modelled from the spec: `semaphore_gather(..., filter_exception=True)`
(`omega_miya/utils/process_utils`, not under `src/`) resolves each task to
either a value or a recorded failure and keeps only the successful values,
in the input order of the tasks (spec sections 4.3 and 5). A task outcome
is modelled as an `Option`. -/
def semaphore_gather_filtered (tasks : List (Option α)) : List α :=
  tasks.filterMap id

/-- The body fetcher of `helper.py` lines 377-380: fetch one request url and
pair the bytes with its description.  The network is an oracle `fetch`
mapping a url to `some` bytes on success or `none` when the fetch raises. -/
def request_preview_body (fetch : Str → Option Bytes)
    (request : PixivArtworkPreviewRequestModel) : Option PixivArtworkPreviewBody :=
  (fetch request.request_url).map (fun b => ⟨request.desc_text, b⟩)

/-- The batch requester of `helper.py` lines 383-391: gather all
per-request bodies with failures filtered out, and record the count of
what remains. -/
def request_preview_model (fetch : Str → Option Bytes) (preview_name : Str)
    (requests : List PixivArtworkPreviewRequestModel) : PixivArtworkPreviewModel :=
  let requests_data := semaphore_gather_filtered (requests.map (request_preview_body fetch))
  ⟨preview_name, requests_data.length, requests_data⟩

/-! ## Markup extraction: nested items -/

/-- A Python exception class relevant to the nested-item loops. -/
inductive PyError
  /-- `TypeError`, e.g. `re.sub` applied to `None`. -/
  | typeError
  /-- `AttributeError`, e.g. `None.get`. -/
  | attributeError
  deriving DecidableEq

/-- An `<a>` element inside one `action-open-thumbnail` item: only its
optional `data-src` attribute is consulted. Modelled from the spec: the
DOM comes from the external `bs4` library; a node is modelled as the
record of the attributes the extractor reads. -/
structure ThumbAnchor where
  data_src : Option Str
  deriving DecidableEq

/-- One `li.action-open-thumbnail` item: `user_illust_elm.a` is `None`
when the item has no `<a>` child. -/
structure ThumbElem where
  a : Option ThumbAnchor
  deriving DecidableEq

/-- The nested-thumbnail comprehension of `parse_user_searching_result_page`
(`helper.py` lines 93-97): each item's `data-src` is read with a `None`
default and `None` entries are filtered out; an item whose `.a` is `None`
raises `AttributeError` out of the comprehension. -/
def illusts_thumb_urls : List ThumbElem → Except PyError (List Str)
  | [] => Except.ok []
  | e :: es =>
    match e.a with
    | none => Except.error PyError.attributeError
    | some anch =>
      match illusts_thumb_urls es with
      | Except.error err => Except.error err
      | Except.ok rest =>
        match anch.data_src with
        | none => Except.ok rest
        | some u => Except.ok (u :: rest)

/-- One `<a>` element of the article tag list: the extractor reads its
optional `data-gtm-label` and `href` attributes. Modelled from the spec:
the DOM node is the record of the attributes read. -/
structure ArticleTagAnchor where
  data_gtm_label : Option Str
  href : Option Str
  deriving DecidableEq

/-- One parsed tag of a pixivision article. -/
structure ArticleTag where
  tag_id : Str
  tag_name : Option Str
  tag_url : Str
  deriving DecidableEq

/-- Semantics of `re.sub(r'^/zh/t/(?=\d+)', '', url)`: remove a leading `/zh/t/` when a
digit follows, otherwise keep the string unchanged. -/
def reSubZhT (url : Str) : Str :=
  if sw ['/', 'z', 'h', '/', 't', '/'] url && ((url.drop 6).headD ' ').isDigit then url.drop 6
  else url

/-- The tag loop of `parse_pixivision_article_page` (`helper.py` lines
159-168): for each anchor the label and href are read with `None`
defaults, then `re.sub` and string concatenation are applied to the href;
a `None` href makes `re.sub` raise `TypeError`, aborting the whole loop.
No item is ever dropped. -/
def parse_article_tags (root_url : Str) : List ArticleTagAnchor → Except PyError (List ArticleTag)
  | [] => Except.ok []
  | t :: ts =>
    match t.href with
    | none => Except.error PyError.typeError
    | some h =>
      match parse_article_tags root_url ts with
      | Except.error err => Except.error err
      | Except.ok rest => Except.ok (⟨reSubZhT h, t.data_gtm_label, root_url ++ h⟩ :: rest)

/-! ## Markup extraction: article layout branch -/

/-- The description-selection branch of `parse_pixivision_article_page`
(`helper.py` lines 170-179).  Inputs are the text already extracted from
the standard anchor `am__description _medium-editor-text`, whether the
probe `find('div', \x7b'class': '_feature-article-body'\x7d)` found the
feature container, and the optional text of the feature anchor
`fab__paragraph _medium-editor-text` (its absence makes `.get_text` raise
`AttributeError` on `None`).  Modelled from the spec: the `bs4` find
results are given as inputs. -/
def resolve_article_description (standard_description : Str) (feature_body_found : Bool)
    (fab_paragraph_text : Option Str) : Except PyError Str :=
  if feature_body_found then
    match fab_paragraph_text with
    | some t => Except.ok t
    | none => Except.error PyError.attributeError
  else
    Except.ok standard_description

/-! ## Card composition -/

/-- A PIL image, modelled by its dimensions and, when it was created by
`Image.new` with a solid fill, that fill color. Modelled from the spec:
PIL is an external library; only sizes and solid fills are tracked. -/
structure PImage where
  width : Nat
  height : Nat
  solid_fill : Option (Nat × Nat × Nat)
  deriving DecidableEq

/-- Semantics of `Image.new(mode, (w, h), color)`. -/
def imageNew (w h : Nat) (color : Nat × Nat × Nat) : PImage := ⟨w, h, some color⟩

/-- Semantics of `img.resize((w, h))`. -/
def imageResize (img : PImage) (w h : Nat) : PImage := ⟨w, h, img.solid_fill⟩

/-- One pasted thumbnail of `_generate_user_searching_result_card`
(`helper.py` lines 291-303): a slot holding an exception becomes a solid
gray placeholder of the thumbnail dimensions, a successful slot is decoded
(oracle `decode`) and resized to the same dimensions. -/
def card_thumb (decode : Bytes → PImage) (thumb_img_width : Nat) :
    Except Unit Bytes → PImage
  | Except.error _ => imageNew thumb_img_width thumb_img_width (127, 127, 127)
  | Except.ok b => imageResize (decode b) thumb_img_width thumb_img_width

/-- The thumbnail loop of `_generate_user_searching_result_card`
(`helper.py` line 292): `enumerate(user_illusts_thumb[:4])` pastes at most
the first four slots.  The slots come from `semaphore_gather` without
exception filtering, so a failed fetch leaves its exception in place
(modelled from the spec's per-item failure contract). -/
def card_thumb_images (decode : Bytes → PImage) (thumb_img_width : Nat)
    (user_illusts_thumb : List (Except Unit Bytes)) : List PImage :=
  (user_illusts_thumb.take 4).map (card_thumb decode thumb_img_width)

/-! ## Grid composition -/

/-- Ceiling division, for the row-count reading of the grid layout. -/
def ceilDivNat (a b : Nat) : Nat := (a + b - 1) / b

/-- The canvas-height computation of `generate_user_searching_result_image`
(`helper.py` lines 337-347): spacing is a twelfth of the card height and
the height is `(card_height + spacing) * len(cards) + title_h + 3 * spacing`.
`card_height` stands for `int(width / ratio)` (the ratio lives in the
config module, outside `src/`), `title_text_h` for the measured title
height returned by the font oracle. -/
def user_searching_image_height (card_height title_text_h num_cards : Nat) : Nat :=
  let spacing_width := card_height / 12
  (card_height + spacing_width) * num_cards + title_text_h + 3 * spacing_width

/-- The header region of the same canvas: the measured title height plus
the three spacings the formula adds around it. -/
def user_searching_header_height (card_height title_text_h : Nat) : Nat :=
  title_text_h + 3 * (card_height / 12)

/-- No occurrence of `pat` begins strictly inside `pre` once `pat` itself
is appended: the valid-URL side condition for the scanner lemmas. -/
def noEarly (pat : Str) : Str → Bool
  | [] => true
  | c :: cs => !sw pat ((c :: cs) ++ pat) && noEarly pat cs

/-! ## Supporting lemmas -/

theorem sw_append_self (p r : Str) : sw p (p ++ r) = true := by
  induction p with
  | nil => rfl
  | cons c cs ih => simpa [sw] using ih

theorem sw_append_of_le (p : Str) : ∀ xs ys : Str, p.length ≤ xs.length →
    sw p (xs ++ ys) = sw p xs := by
  induction p with
  | nil => intro xs ys _; rfl
  | cons c cs ih =>
    intro xs ys h
    cases xs with
    | nil => simp at h
    | cons x xs' =>
      by_cases hcx : c = x
      · simp only [List.cons_append, sw, if_pos hcx]
        exact ih xs' ys (by simpa using h)
      · simp only [List.cons_append, sw, if_neg hcx]

theorem stripPre_append (p r : Str) : stripPre p (p ++ r) = some r := by
  induction p with
  | nil => rfl
  | cons c cs ih => simpa [stripPre] using ih

theorem scanFor_hit (pat : Str) (k : Str → Option Nat) (s : Str) (n : Nat)
    (h0 : s ≠ []) (h1 : sw pat s = true) (h2 : k (s.drop pat.length) = some n) :
    scanFor pat k s = some n := by
  cases s with
  | nil => exact absurd rfl h0
  | cons c cs => simp [scanFor, h1, h2]

theorem scanFor_miss (pat : Str) (k : Str → Option Nat) (c : Char) (cs : Str)
    (h1 : sw pat (c :: cs) = false) (h2 : c ≠ '\n') :
    scanFor pat k (c :: cs) = scanFor pat k cs := by
  simp [scanFor, h1, h2]

theorem scanFor_append (pat : Str) (k : Str → Option Nat) (rest : Str) (n : Nat)
    (hpat : pat ≠ []) (hk : k rest = some n) :
    ∀ pre : Str, '\n' ∉ pre → noEarly pat pre = true →
      scanFor pat k (pre ++ (pat ++ rest)) = some n := by
  intro pre
  induction pre with
  | nil =>
    intro _ _
    rw [List.nil_append]
    refine scanFor_hit pat k (pat ++ rest) n ?_ (sw_append_self pat rest) ?_
    · cases pat with
      | nil => exact absurd rfl hpat
      | cons p ps => simp
    · rw [List.drop_left, hk]
  | cons c cs ih =>
    intro hnl hocc
    have hocc1 : sw pat ((c :: cs) ++ pat) = false := by
      have := (Bool.and_eq_true _ _).mp hocc
      simpa using this.1
    have hocc2 : noEarly pat cs = true := ((Bool.and_eq_true _ _).mp hocc).2
    have hlen : pat.length ≤ ((c :: cs) ++ pat).length := by
      simp [List.length_append]
      omega
    have hsw : sw pat ((c :: cs) ++ (pat ++ rest)) = false := by
      rw [show (c :: cs) ++ (pat ++ rest) = ((c :: cs) ++ pat) ++ rest by
        simp [List.append_assoc]]
      rw [sw_append_of_le pat ((c :: cs) ++ pat) rest hlen, hocc1]
    have hc : c ≠ '\n' := fun h => hnl (h ▸ List.mem_cons_self c cs)
    have hstep : scanFor pat k ((c :: cs) ++ (pat ++ rest))
        = scanFor pat k (cs ++ (pat ++ rest)) := by
      rw [List.cons_append]
      exact scanFor_miss pat k c (cs ++ (pat ++ rest))
        (by simpa [List.cons_append] using hsw) hc
    rw [hstep]
    exact ih (fun h => hnl (List.mem_cons_of_mem c h)) hocc2

theorem getLast?_digits_ne_nl (d : Str) (hd : ∀ c ∈ d, c.isDigit) :
    d.getLast? ≠ some '\n' := by
  intro h
  have hmem : '\n' ∈ d := by
    obtain ⟨hne, heq⟩ := List.mem_getLast?_eq_getLast (l := d) (x := '\n') (by rw [h]; simp)
    rw [heq]
    exact List.getLast_mem hne
  exact absurd (hd '\n' hmem) (by decide)

theorem digitsToEnd_digits (d : Str) (hne : d ≠ []) (hd : ∀ c ∈ d, c.isDigit) :
    digitsToEnd d = some (digitsVal d) := by
  have h1 : chopFinalNl d = d := by
    rw [chopFinalNl, if_neg (getLast?_digits_ne_nl d hd)]
  have h2 : isDigits d = true := by
    simp only [isDigits, Bool.and_eq_true, Bool.not_eq_true', List.isEmpty_iff,
      List.all_eq_true]
    exact ⟨by simpa using hne, fun c hc => by simpa using hd c hc⟩
  simp only [digitsToEnd, h1, h2, if_true]

theorem takeDigitRun_all (d : Str) (hd : ∀ c ∈ d, c.isDigit) :
    takeDigitRun d = (d, []) := by
  induction d with
  | nil => rfl
  | cons c cs ih =>
    have hc : c.isDigit := hd c (List.mem_cons_self c cs)
    simp [takeDigitRun, hc, ih (fun x hx => hd x (List.mem_cons_of_mem c hx))]

theorem legacyTailStrict_digits (d : Str) (hne : d ≠ []) (hd : ∀ c ∈ d, c.isDigit) :
    legacyTailStrict d = some (digitsVal d) := by
  have h1 : chopFinalNl d = d := by
    rw [chopFinalNl, if_neg (getLast?_digits_ne_nl d hd)]
  simp only [legacyTailStrict, h1, takeDigitRun_all d hd]
  simp [List.isEmpty_iff, hne]

theorem sw_ne_head (p c : Char) (ps cs : Str) (h : p ≠ c) :
    sw (p :: ps) (c :: cs) = false := by
  simp [sw, h]

theorem tryNewTailStrict_artworks (d : Str) (hne : d ≠ []) (hd : ∀ c ∈ d, c.isDigit) :
    tryNewTailStrict (artworksSlash ++ d) = some (digitsVal d) := by
  have h9 : (artworksSlash ++ d).drop 9 = d := List.drop_left artworksSlash d
  simp only [tryNewTailStrict, sw_append_self, if_true, h9]
  exact digitsToEnd_digits d hne hd

theorem tryNewTailStrict_i (d : Str) (hne : d ≠ []) (hd : ∀ c ∈ d, c.isDigit) :
    tryNewTailStrict (iSlash ++ d) = some (digitsVal d) := by
  have ha : sw artworksSlash (iSlash ++ d) = false := by
    rw [show iSlash ++ d = 'i' :: ('/' :: d) from rfl]
    exact sw_ne_head 'a' 'i' _ _ (by decide)
  have h2 : (iSlash ++ d).drop 2 = d := List.drop_left iSlash d
  simp only [tryNewTailStrict, ha, Bool.false_eq_true, if_false, sw_append_self, if_true, h2]
  exact digitsToEnd_digits d hne hd

theorem matchStrictNew_https (t : Str) : matchStrictNew (httpsPat ++ t) = scanStrictNew t := by
  simp [matchStrictNew, stripPre_append]

theorem matchStrictLegacy_https (t : Str) :
    matchStrictLegacy (httpsPat ++ t) = scanFor pixPat scanStrictIllust t := by
  simp [matchStrictLegacy, stripPre_append]

theorem parse_strict_of_new (s : Str) (n : Nat) (h : matchStrictNew s = some n) :
    parse_pid_from_url s true = some n := by
  simp [parse_pid_from_url, h]

theorem parse_strict_of_legacy (s : Str) (n : Nat) (h1 : matchStrictNew s = none)
    (h2 : matchStrictLegacy s = some n) : parse_pid_from_url s true = some n := by
  simp [parse_pid_from_url, h1, h2]

/-! ## Claim theorems -/

/-- The input of claim C1: a URL in which `pixiv.net` appears only inside
the path of another host. -/
def c1_url : Str := ("https://x.example/pixiv.net/artworks/12345").data

/-- C1, counterexample: the claim says that in strict mode
`parse_pid_from_url` returns `None` on a URL whose `pixiv.net` occurs only
inside the path of another host; on the code it does not — the lazy
dot-star of the anchored pattern absorbs the foreign host, so the strict
match succeeds. -/
theorem c1_strict_counterexample : parse_pid_from_url c1_url true ≠ none := by decide

/-- C1, amended: strict mode anchors the match only at the start and end
of the whole string, not at the domain/path boundary, so for
`https://x.example/pixiv.net/artworks/12345` both strict mode and loose
mode return the embedded id 12345. -/
theorem c1_strict_and_loose_both_match :
    parse_pid_from_url c1_url true = some 12345 ∧
    parse_pid_from_url c1_url false = some 12345 := by decide

/-- C3: in strict url mode `parse_pid_from_url` returns the embedded id of
every valid page-id URL of either supported shape — the path style
`https://…pixiv.net/artworks/id` or `…/i/id`, and the legacy query style
`…illust_id=id` — trying the path-style pattern first and falling back to
the legacy one, and returns `None` when neither pattern matches.  A valid
URL is one whose filler segments contain no newline and do not start an
earlier occurrence of the scanned literal. -/
theorem c3_strict_url_shapes :
    (∀ mid d : Str, '\n' ∉ mid → noEarly pixSlash mid = true → d ≠ [] →
      (∀ c ∈ d, c.isDigit) →
      parse_pid_from_url (httpsPat ++ mid ++ pixSlash ++ artworksSlash ++ d) true
        = some (digitsVal d)) ∧
    (∀ mid d : Str, '\n' ∉ mid → noEarly pixSlash mid = true → d ≠ [] →
      (∀ c ∈ d, c.isDigit) →
      parse_pid_from_url (httpsPat ++ mid ++ pixSlash ++ iSlash ++ d) true
        = some (digitsVal d)) ∧
    (∀ mid1 mid2 d : Str, '\n' ∉ mid1 → noEarly pixPat mid1 = true →
      '\n' ∉ mid2 → noEarly illustIdPat mid2 = true → d ≠ [] → (∀ c ∈ d, c.isDigit) →
      matchStrictNew (httpsPat ++ mid1 ++ pixPat ++ mid2 ++ illustIdPat ++ d) = none →
      parse_pid_from_url (httpsPat ++ mid1 ++ pixPat ++ mid2 ++ illustIdPat ++ d) true
        = some (digitsVal d)) ∧
    (∀ s : Str, matchStrictNew s = none → matchStrictLegacy s = none →
      parse_pid_from_url s true = none) := by
  refine ⟨?_, ?_, ?_, ?_⟩
  · intro mid d hnl hocc hne hd
    apply parse_strict_of_new
    rw [show httpsPat ++ mid ++ pixSlash ++ artworksSlash ++ d
        = httpsPat ++ (mid ++ (pixSlash ++ (artworksSlash ++ d))) by simp [List.append_assoc]]
    rw [matchStrictNew_https]
    exact scanFor_append pixSlash tryNewTailStrict (artworksSlash ++ d) _ (by decide)
      (tryNewTailStrict_artworks d hne hd) mid hnl hocc
  · intro mid d hnl hocc hne hd
    apply parse_strict_of_new
    rw [show httpsPat ++ mid ++ pixSlash ++ iSlash ++ d
        = httpsPat ++ (mid ++ (pixSlash ++ (iSlash ++ d))) by simp [List.append_assoc]]
    rw [matchStrictNew_https]
    exact scanFor_append pixSlash tryNewTailStrict (iSlash ++ d) _ (by decide)
      (tryNewTailStrict_i d hne hd) mid hnl hocc
  · intro mid1 mid2 d h1 h2 h3 h4 hne hd hnew
    apply parse_strict_of_legacy _ _ hnew
    rw [show httpsPat ++ mid1 ++ pixPat ++ mid2 ++ illustIdPat ++ d
        = httpsPat ++ (mid1 ++ (pixPat ++ (mid2 ++ (illustIdPat ++ d))))
        by simp [List.append_assoc]]
    rw [matchStrictLegacy_https]
    refine scanFor_append pixPat scanStrictIllust (mid2 ++ (illustIdPat ++ d)) _
      (by decide) ?_ mid1 h1 h2
    exact scanFor_append illustIdPat legacyTailStrict d _ (by decide)
      (legacyTailStrict_digits d hne hd) mid2 h3 h4
  · intro s h1 h2
    simp [parse_pid_from_url, h1, h2]

/-- Witness for C3 at concrete URLs of all three supported shapes and one
non-matching string. -/
theorem c3_strict_url_shapes_witness :
    parse_pid_from_url (httpsPat ++ ("www.").data ++ pixSlash ++ artworksSlash ++ ("123").data)
      true = some 123 ∧
    parse_pid_from_url (httpsPat ++ ("www.").data ++ pixSlash ++ iSlash ++ ("99").data)
      true = some 99 ∧
    parse_pid_from_url (httpsPat ++ ("www.").data ++ pixPat ++
      ("/member_illust.php?mode=medium&").data ++ illustIdPat ++ ("456").data)
      true = some 456 ∧
    parse_pid_from_url (("https://example.com/foo").data) true = none :=
  ⟨(c3_strict_url_shapes.1 ("www.").data ("123").data (by decide) (by decide) (by decide)
      (by decide)).trans (by decide),
   (c3_strict_url_shapes.2.1 ("www.").data ("99").data (by decide) (by decide) (by decide)
      (by decide)).trans (by decide),
   (c3_strict_url_shapes.2.2.1 ("www.").data ("/member_illust.php?mode=medium&").data
      ("456").data (by decide) (by decide) (by decide) (by decide) (by decide) (by decide)
      (by decide)).trans (by decide),
   c3_strict_url_shapes.2.2.2 (("https://example.com/foo").data) (by decide) (by decide)⟩

theorem ite_gt_flip {α : Type} (n m : Nat) (a b : α) :
    (if n > m then a else b) = (if n ≤ m then b else a) := by
  by_cases h : n ≤ m
  · rw [if_neg (by omega), if_pos h]
  · rw [if_pos (by omega), if_neg h]

/-- C10: `format_artwork_preview_desc` returns exactly three
newline-separated lines: the pid line, the title kept unchanged when its
length is at most `num_lmt` and otherwise its first `num_lmt` characters
followed by three dots, and the author line truncated the same way when
the whole line exceeds `num_lmt` characters, at the default limit 13. -/
theorem c10_format_artwork_preview_desc_lines (pid title uname : Str) :
    format_artwork_preview_desc pid title uname 13 =
      (['P', 'i', 'd', ':', ' '] ++ pid) ++ '\n' ::
        ((if title.length ≤ 13 then title else title.take 13 ++ ['.', '.', '.']) ++ '\n' ::
          (if (['A', 'u', 't', 'h', 'o', 'r', ':', ' '] ++ uname).length ≤ 13 then
            ['A', 'u', 't', 'h', 'o', 'r', ':', ' '] ++ uname
          else (['A', 'u', 't', 'h', 'o', 'r', ':', ' '] ++ uname).take 13 ++ ['.', '.', '.'])) := by
  simp only [format_artwork_preview_desc]
  rw [ite_gt_flip, ite_gt_flip]
  simp [List.append_assoc]

/-- C9: the grid canvas height of `generate_user_searching_result_image`
equals a header height derived from the measured title height plus
`rows * (card_height + spacing)`, where `rows` is the ceiling of the card
count divided by the cards per row; with one card per row the row count
equals the card count. -/
theorem c9_grid_canvas_height (card_height title_text_h num_cards : Nat) :
    user_searching_image_height card_height title_text_h num_cards =
      user_searching_header_height card_height title_text_h +
        ceilDivNat num_cards 1 * (card_height + card_height / 12) ∧
    ceilDivNat num_cards 1 = num_cards := by
  have hrows : ceilDivNat num_cards 1 = num_cards := by
    simp [ceilDivNat]
  refine ⟨?_, hrows⟩
  rw [hrows]
  simp only [user_searching_image_height, user_searching_header_height]
  generalize card_height / 12 = sp
  ring

/-- C8: `parse_pixivision_article_page` decides between the two article
layouts by probing for the feature container: when the probe finds it, the
description is re-extracted from the feature-layout anchor, otherwise the
description from the standard anchor is kept. -/
theorem c8_article_layout_branch :
    (∀ (standard t : Str),
      resolve_article_description standard true (some t) = Except.ok t) ∧
    (∀ (standard : Str) (o : Option Str),
      resolve_article_description standard false o = Except.ok standard) :=
  ⟨fun _ _ => rfl, fun _ _ => rfl⟩

/-- C4: `_get_pixiv_resource` returns the fetched bytes exactly when the
response status is the success status 200, and raises `PixivNetworkError`
carrying the status in its message on any other status, returning no
partial result in that case. -/
theorem c4_get_pixiv_resource (content : HttpFetcherBytesResult) :
    (content.status = 200 → get_pixiv_resource content = Except.ok content.result) ∧
    (content.status ≠ 200 →
      get_pixiv_resource content = Except.error ⟨pixivNetworkErrorMsg content.status⟩ ∧
      ∀ b : Bytes, get_pixiv_resource content ≠ Except.ok b) := by
  constructor
  · intro h
    simp [get_pixiv_resource, h]
  · intro h
    refine ⟨by simp [get_pixiv_resource, h], ?_⟩
    intro b hb
    rw [get_pixiv_resource, if_pos h] at hb
    exact Except.noConfusion hb

/-- Witness for C4 at a success response and a 404 response. -/
theorem c4_get_pixiv_resource_witness :
    get_pixiv_resource ⟨200, [7, 8]⟩ = Except.ok [7, 8] ∧
    get_pixiv_resource ⟨404, [9]⟩ = Except.error ⟨pixivNetworkErrorMsg 404⟩ :=
  ⟨(c4_get_pixiv_resource ⟨200, [7, 8]⟩).1 rfl,
   ((c4_get_pixiv_resource ⟨404, [9]⟩).2 (by decide)).1⟩

theorem gather_map_eq {α β : Type} (f : α → Option β) (l : List α) :
    semaphore_gather_filtered (l.map f) = l.filterMap f := by
  simp [semaphore_gather_filtered, List.filterMap_map]

theorem filterMap_bodies_eq (fetch : Str → Option Bytes) :
    ∀ requests : List PixivArtworkPreviewRequestModel,
      List.filterMap (request_preview_body fetch) requests =
        (requests.filter (fun r => (fetch r.request_url).isSome)).map
          (fun r => ⟨r.desc_text, (fetch r.request_url).getD []⟩) := by
  intro requests
  induction requests with
  | nil => rfl
  | cons r rs ih =>
    cases hf : fetch r.request_url with
    | none =>
      simp [List.filterMap_cons, request_preview_body, hf, List.filter_cons, ih]
    | some b =>
      simp [List.filterMap_cons, request_preview_body, hf, List.filter_cons, ih]

theorem gather_bodies_eq (fetch : Str → Option Bytes)
    (requests : List PixivArtworkPreviewRequestModel) :
    semaphore_gather_filtered (requests.map (request_preview_body fetch)) =
      (requests.filter (fun r => (fetch r.request_url).isSome)).map
        (fun r => ⟨r.desc_text, (fetch r.request_url).getD []⟩) := by
  rw [gather_map_eq, filterMap_bodies_eq]

/-- C2: every preview batch built by `_request_preview_model` satisfies
`count = length previews`, and `previews` is the input sequence filtered
down to the successfully fetched requests in their input order — a stable
filter, witnessed both by the explicit filter equation and by the
sublist relation on the description texts. -/
theorem c2_preview_batch_invariants (fetch : Str → Option Bytes) (preview_name : Str)
    (requests : List PixivArtworkPreviewRequestModel) :
    (request_preview_model fetch preview_name requests).count
      = (request_preview_model fetch preview_name requests).previews.length ∧
    (request_preview_model fetch preview_name requests).previews =
      (requests.filter (fun r => (fetch r.request_url).isSome)).map
        (fun r => ⟨r.desc_text, (fetch r.request_url).getD []⟩) ∧
    ((request_preview_model fetch preview_name requests).previews.map
      (fun b => b.desc_text)).Sublist (requests.map (fun r => r.desc_text)) := by
  refine ⟨rfl, gather_bodies_eq fetch requests, ?_⟩
  have hp : (request_preview_model fetch preview_name requests).previews =
      (requests.filter (fun r => (fetch r.request_url).isSome)).map
        (fun r => ⟨r.desc_text, (fetch r.request_url).getD []⟩) :=
    gather_bodies_eq fetch requests
  rw [hp, List.map_map]
  exact (List.filter_sublist requests).map _

/-- C7: an input sequence whose fetches all fail, and likewise an empty
input sequence, produce a preview batch with `count = 0` and no previews,
rather than an error. -/
theorem c7_failed_and_empty_batches :
    (∀ (fetch : Str → Option Bytes) (preview_name : Str),
      request_preview_model fetch preview_name [] =
        ⟨preview_name, 0, []⟩) ∧
    (∀ (fetch : Str → Option Bytes) (preview_name : Str)
        (requests : List PixivArtworkPreviewRequestModel),
      (∀ r ∈ requests, fetch r.request_url = none) →
      (request_preview_model fetch preview_name requests).count = 0 ∧
      (request_preview_model fetch preview_name requests).previews = []) := by
  constructor
  · intro fetch preview_name
    rfl
  · intro fetch preview_name requests h
    have hfil : requests.filter (fun r => (fetch r.request_url).isSome) = [] := by
      rw [List.filter_eq_nil_iff]
      intro r hr
      simp [h r hr]
    have hbody : semaphore_gather_filtered (requests.map (request_preview_body fetch)) = [] := by
      rw [gather_bodies_eq fetch requests, hfil]
      rfl
    exact ⟨by simp [request_preview_model, hbody], by simp [request_preview_model, hbody]⟩

/-- Witness for C7: a one-request batch whose only fetch fails has
count 0 and no previews. -/
theorem c7_failed_and_empty_batches_witness :
    (request_preview_model (fun _ => none) [] [⟨['d'], ['u']⟩]).count = 0 ∧
    (request_preview_model (fun _ => none) [] [⟨['d'], ['u']⟩]).previews = [] :=
  c7_failed_and_empty_batches.2 (fun _ => none) [] [⟨['d'], ['u']⟩] (fun _ _ => rfl)

/-- C5: the user-search card composites at most four thumbnails, every
composited thumbnail (placeholder or fetched) has the regular thumbnail
dimensions, and a slot holding an exception is composited as the solid
gray placeholder of those dimensions. -/
theorem c5_card_thumbnails (decode : Bytes → PImage) (thumb_img_width : Nat)
    (user_illusts_thumb : List (Except Unit Bytes)) :
    (card_thumb_images decode thumb_img_width user_illusts_thumb).length ≤ 4 ∧
    (∀ img ∈ card_thumb_images decode thumb_img_width user_illusts_thumb,
      img.width = thumb_img_width ∧ img.height = thumb_img_width) ∧
    (∀ (i : Nat) (e : Unit), (user_illusts_thumb.take 4)[i]? = some (Except.error e) →
      (card_thumb_images decode thumb_img_width user_illusts_thumb)[i]?
        = some (imageNew thumb_img_width thumb_img_width (127, 127, 127))) := by
  refine ⟨?_, ?_, ?_⟩
  · simp only [card_thumb_images, List.length_map, List.length_take]
    omega
  · intro img hmem
    rw [card_thumb_images] at hmem
    obtain ⟨slot, _, rfl⟩ := List.mem_map.mp hmem
    cases slot <;> simp [card_thumb, imageNew, imageResize]
  · intro i e h
    rw [card_thumb_images, List.getElem?_map, h]
    rfl

/-- Witness for C5: a two-slot batch whose second fetch failed gets the
gray placeholder in position 1. -/
theorem c5_card_thumbnails_witness :
    (card_thumb_images (fun _ => ⟨1, 1, none⟩) 100 [Except.ok [5], Except.error ()])[1]?
      = some (imageNew 100 100 (127, 127, 127)) ∧
    (card_thumb_images (fun _ => ⟨1, 1, none⟩) 100 [Except.ok [5], Except.error ()]).length ≤ 4 :=
  ⟨(c5_card_thumbnails (fun _ => ⟨1, 1, none⟩) 100 [Except.ok [5], Except.error ()]).2.2 1 ()
      (by rfl),
   (c5_card_thumbnails (fun _ => ⟨1, 1, none⟩) 100 [Except.ok [5], Except.error ()]).1⟩

/-- C6, counterexample: the claim says a parse failure of one nested item
never aborts the parent record, but in the pixivision article tag loop a
tag anchor with no `href` attribute makes `re.sub` raise `TypeError`,
aborting the whole parse even when another tag is well-formed. -/
theorem c6_tags_abort_counterexample :
    parse_article_tags (("https://www.pixivision.net").data)
      [⟨some (("tag1").data), some (("/zh/t/1").data)⟩, ⟨none, none⟩]
      = Except.error PyError.typeError := by rfl

/-- C6, amended: in the user-search thumbnail extractor a nested item
whose anchor lacks `data-src` is dropped without affecting the parent, but
in the pixivision article tag extractor a tag anchor with no `href`
aborts the whole parent parse with `TypeError`; tag items are never
dropped individually. -/
theorem c6_nested_item_policy :
    (∀ (pre post : List ThumbElem) (anch : ThumbAnchor), anch.data_src = none →
      illusts_thumb_urls (pre ++ ⟨some anch⟩ :: post) = illusts_thumb_urls (pre ++ post)) ∧
    (∀ (root_url : Str) (pre post : List ArticleTagAnchor) (t : ArticleTagAnchor),
      t.href = none →
      parse_article_tags root_url (pre ++ t :: post) = Except.error PyError.typeError) := by
  constructor
  · intro pre post anch h
    induction pre with
    | nil =>
      simp only [List.nil_append]
      cases hr : illusts_thumb_urls post <;> simp [illusts_thumb_urls, hr, h]
    | cons e pre ih =>
      cases ha : e.a with
      | none => simp [illusts_thumb_urls, ha]
      | some a => simp [illusts_thumb_urls, ha, ih]
  · intro root_url pre post t h
    induction pre with
    | nil => simp [parse_article_tags, h]
    | cons t' pre ih =>
      cases h' : t'.href with
      | none => simp [parse_article_tags, h']
      | some hh => simp [parse_article_tags, h', ih]

/-- Witness for C6 at concrete nested lists. -/
theorem c6_nested_item_policy_witness :
    illusts_thumb_urls [⟨some ⟨some (("u1").data)⟩⟩, ⟨some ⟨none⟩⟩]
      = illusts_thumb_urls [⟨some ⟨some (("u1").data)⟩⟩] ∧
    parse_article_tags ['r'] [⟨none, none⟩] = Except.error PyError.typeError :=
  ⟨c6_nested_item_policy.1 [⟨some ⟨some (("u1").data)⟩⟩] [] ⟨none⟩ rfl,
   c6_nested_item_policy.2 ['r'] [] [] ⟨none, none⟩ rfl⟩

end PixivHelper
